import Mathlib

/-!
Shallow embedding of the invoice and payment ledger engine of the
`gestionale_officina` backend (FastAPI + SQLAlchemy).  Monetary values of
the Python source are `Decimal` columns with two fractional digits; they
are modelled here as exact rationals, and
`Decimal.quantize(Decimal("0.01"), ROUND_HALF_UP)` is modelled by
`roundCents` (round half away from zero to a whole number of cents, which
is what `ROUND_HALF_UP` does in Python's `decimal` module).

The embedded operations come from:
- `app/models/invoice.py` (Invoice.status, Invoice.remaining_amount,
  InvoiceLine.subtotal, Payment.unallocated_amount, the unique index on
  (payment_id, invoice_id));
- `app/services/invoice_service.py` (create_from_work_order,
  _generate_invoice_number, _allocate_payment);
- `app/services/credit_note_service.py` (create_from_invoice,
  create_partial, _generate_credit_note_number);
- `app/services/deposit_service.py` (apply_to_invoice);
- `app/models/intent_declaration.py` (remaining_amount);
- `app/core/config.py` (stamp_duty_threshold defaults to 77.47,
  stamp_duty_amount defaults to 2.00).

Database reads are passed in as explicit lists of rows; database writes
are returned as explicit result records.  The session factory of
`app/core/database.py` is built with `autoflush=False`, so rows `add`ed
during a request are not visible to later queries of the same request
until the explicit `flush()`; the embedding of the manual allocation loop
reflects that by validating every batch entry against the persisted rows
only, and the embedding of `flush()` raises the unique-index violation
afterwards.
-/

namespace Gestionale

/-- `Decimal.quantize(Decimal("0.01"), ROUND_HALF_UP)`: round to a whole
number of cents, ties away from zero. -/
def roundCents (x : ℚ) : ℚ :=
  if 0 ≤ x then ((⌊x * 100 + 1 / 2⌋ : ℤ) : ℚ) / 100
  else -(((⌊-x * 100 + 1 / 2⌋ : ℤ) : ℚ) / 100)

/-- A rational that is a whole number of cents (the value set of the
`Numeric(_, 2)` database columns). -/
def IsCents (x : ℚ) : Prop := ∃ k : ℤ, x = (k : ℚ) / 100

/-! ## Error taxonomy (`app/core/exceptions.py`) -/

/-- The service-layer exception kinds raised by the ledger engine.
`integrity` is a database `IntegrityError` escaping an explicit
`flush()` (it is not one of the three service classes). -/
inductive ServiceError where
  | notFound (msg : String)
  | businessValidation (msg : String)
  | conflict (msg : String)
  | integrity (msg : String)
deriving DecidableEq, Repr

/-- `true` exactly on a `BusinessValidationError` result. -/
def isBusinessValidation {α : Type} : Except ServiceError α → Bool
  | .error (.businessValidation _) => true
  | _ => false

/-! ## Status deriver (`Invoice.status`, app/models/invoice.py 289-315) -/

/-- The data `Invoice.status` reads: totals, due date (a day ordinal),
the amounts of the payment allocations received, and the credit notes
attached to the invoice. -/
structure StatusInput where
  total : ℚ
  dueDate : ℤ
  allocationAmounts : List ℚ
  creditNoteCount : ℕ
deriving DecidableEq, Repr

/-- `Invoice.paid_amount`: sum of the allocation amounts. -/
def paidAmount (s : StatusInput) : ℚ := s.allocationAmounts.sum

/-- `Invoice.remaining_amount = total - paid_amount`. -/
def remainingAmount (s : StatusInput) : ℚ := s.total - paidAmount s

/-- `Invoice.status`, with `today` passed explicitly in place of
`date.today()`. -/
def invoiceStatus (today : ℤ) (s : StatusInput) : String :=
  if s.creditNoteCount > 0 then "credited"
  else if paidAmount s ≥ s.total then "paid"
  else if today > s.dueDate ∧ remainingAmount s > 0 then "overdue"
  else if paidAmount s > 0 then "partial"
  else "unpaid"

/-- The status precedence exactly as the claim states it: credited if at
least one credit note exists; otherwise paid if `paid_amount >= total`;
otherwise overdue if today is past `due_date` and `remaining_amount > 0`;
otherwise partial if `paid_amount > 0`; otherwise unpaid. -/
def claimedStatus (today : ℤ) (s : StatusInput) : String :=
  if s.creditNoteCount > 0 then "credited"
  else if paidAmount s ≥ s.total then "paid"
  else if today > s.dueDate ∧ remainingAmount s > 0 then "overdue"
  else if paidAmount s > 0 then "partial"
  else "unpaid"

/-! ## Sequence allocator (`_generate_invoice_number`,
app/services/invoice_service.py 512-571, and
`_generate_credit_note_number`, app/services/credit_note_service.py
239-266).  The database read "highest existing number with the period's
prefix" is passed in as `lastNumber`; the advisory lock serialising the
readers has no pure content. -/

/-- `f"{n:04d}"`: zero-pad to (at least) four digits. -/
def pad4 (n : ℕ) : String :=
  if n < 10 then "000" ++ toString n
  else if n < 100 then "00" ++ toString n
  else if n < 1000 then "0" ++ toString n
  else toString n

/-- `head ++ f"{year}/" ++ f"{n:04d}"`: the document-number format. -/
def numberString (head : String) (year : ℕ) (n : ℕ) : String :=
  head ++ toString year ++ "/" ++ pad4 n

/-- The increment step: the last existing number plus one, or 1 when the
period has no document yet. -/
def nextNumber : Option ℕ → ℕ
  | some n => n + 1
  | none => 1

/-- `InvoiceService._generate_invoice_number`: `lastNumber` is the
numeric part of the highest existing invoice number of the year, if
any. -/
def generateInvoiceNumber (year : ℕ) (lastNumber : Option ℕ) :
    Except ServiceError String :=
  if nextNumber lastNumber > 9999 then
    .error (.conflict ("Limite numerazione fatture raggiunto per l'anno " ++ toString year))
  else
    .ok (numberString "" year (nextNumber lastNumber))

/-- `CreditNoteService._generate_credit_note_number`: same shape under
the disjoint `NC-` family. -/
def generateCreditNoteNumber (year : ℕ) (lastNumber : Option ℕ) :
    Except ServiceError String :=
  if nextNumber lastNumber > 9999 then
    .error (.conflict ("Limite numerazione note di credito raggiunto per l'anno " ++ toString year))
  else
    .ok (numberString "NC-" year (nextNumber lastNumber))

/-! ## Credit-limit exposure (`create_from_work_order`,
app/services/invoice_service.py 384-426).  The two aggregate queries are
embedded row by row. -/

/-- An `invoices` row as the exposure queries see it. -/
structure InvoiceRow where
  id : ℕ
  clientId : ℕ
  total : ℚ
deriving DecidableEq, Repr

/-- A `payments` row. -/
structure PaymentRow where
  id : ℕ
  amount : ℚ
deriving DecidableEq, Repr

/-- A `payment_allocations` row. -/
structure AllocRow where
  paymentId : ℕ
  invoiceId : ℕ
  amount : ℚ
deriving DecidableEq, Repr

/-- `select(coalesce(sum(Invoice.total), 0)).where(Invoice.client_id ==
client.id)`. -/
def totalInvoiced (c : ℕ) (invoices : List InvoiceRow) : ℚ :=
  (invoices.map (fun i => if i.clientId = c then i.total else 0)).sum

/-- `select(coalesce(sum(Payment.amount), 0)).join(PaymentAllocation)
.join(Invoice).where(Invoice.client_id == client.id)`: the join produces
one row per (payment, allocation, invoice) triple satisfying the foreign
keys, and each such row contributes the whole `Payment.amount`. -/
def totalPaidJoin (c : ℕ) (payments : List PaymentRow) (allocs : List AllocRow)
    (invoices : List InvoiceRow) : ℚ :=
  (payments.map (fun p =>
    (allocs.map (fun a =>
      (invoices.map (fun i =>
        if p.id = a.paymentId ∧ a.invoiceId = i.id ∧ i.clientId = c then p.amount
        else 0)).sum)).sum)).sum

/-- The paid total as the spec words it: the sum of the **allocation**
amounts tied to the party's invoices. -/
def allocationPaidTotal (c : ℕ) (allocs : List AllocRow)
    (invoices : List InvoiceRow) : ℚ :=
  (allocs.map (fun a =>
    if invoices.any (fun i => a.invoiceId == i.id && i.clientId == c) then a.amount
    else 0)).sum

/-- `current_exposure = total_invoiced - total_paid` as the code computes
it. -/
def currentExposure (c : ℕ) (payments : List PaymentRow) (allocs : List AllocRow)
    (invoices : List InvoiceRow) : ℚ :=
  totalInvoiced c invoices - totalPaidJoin c payments allocs invoices

/-! ## Payment ledger (`_allocate_payment`,
app/services/invoice_service.py 914-1075) -/

/-- An invoice as the allocation code loads it: `persistedPaid` is the
sum of the already-persisted allocations (`selectinload`); with
`autoflush=False` it never includes allocations added earlier in the
same request. -/
structure LedgerInvoice where
  id : ℕ
  clientId : ℕ
  invoiceDate : ℤ
  dueDate : ℤ
  total : ℚ
  persistedPaid : ℚ
deriving DecidableEq, Repr

/-- `Invoice.remaining_amount` over the persisted allocations. -/
def ledgerRemaining (i : LedgerInvoice) : ℚ := i.total - i.persistedPaid

/-- The payment being allocated. -/
structure PaymentHead where
  clientId : ℕ
  amount : ℚ
deriving DecidableEq, Repr

/-- One entry of a manual allocation batch. -/
structure ManualEntry where
  invoiceId : ℕ
  amount : ℚ
deriving DecidableEq, Repr

/-- `Payment.unallocated_amount = amount - allocated_amount`. -/
def unallocatedAmount (paymentAmount : ℚ) (allocs : List (ℕ × ℚ)) : ℚ :=
  paymentAmount - (allocs.map Prod.snd).sum

/-- `true` when the list of invoice ids has a repeated element: with one
payment, this is exactly when the `flush()` violates the unique index
`idx_payment_invoice_unique (payment_id, invoice_id)`. -/
def hasDupId : List ℕ → Bool
  | [] => false
  | x :: xs => xs.contains x || hasDupId xs

/-- The `flush()` ending `_allocate_payment`: inserting two allocations
of the same payment against the same invoice violates
`idx_payment_invoice_unique` and raises `IntegrityError`. -/
def flushAllocations (allocs : List (ℕ × ℚ)) :
    Except ServiceError (List (ℕ × ℚ)) :=
  if hasDupId (allocs.map Prod.fst) then
    .error (.integrity "duplicate key value violates unique constraint idx_payment_invoice_unique")
  else .ok allocs

/-- The per-entry validation loop of the `manual` branch.  Every entry is
checked against the invoice's **persisted** `remaining_amount`: the
session has `autoflush=False`, so allocations added by earlier entries of
the same batch are invisible to the re-executed `select`. -/
def manualLoop (payment : PaymentHead) (invoices : List LedgerInvoice) :
    List ManualEntry → Except ServiceError (List (ℕ × ℚ))
  | [] => .ok []
  | e :: rest =>
    match (invoices.filter
        (fun i => i.id == e.invoiceId && i.clientId == payment.clientId)).head? with
    | none => .error (.notFound "Fattura non trovata o non appartiene al cliente")
    | some inv =>
      if e.amount > ledgerRemaining inv then
        .error (.businessValidation "importo allocato supera residuo")
      else
        match manualLoop payment invoices rest with
        | .error err => .error err
        | .ok tail => .ok ((e.invoiceId, e.amount) :: tail)

/-- The `manual` strategy: upfront check of the batch sum against
`payment.amount`, the per-entry loop, then the flush. -/
def allocateManual (payment : PaymentHead) (invoices : List LedgerInvoice)
    (entries : List ManualEntry) : Except ServiceError (List (ℕ × ℚ)) :=
  if entries.isEmpty then
    .error (.businessValidation "Strategy 'manual' richiede lista allocations")
  else if (entries.map (fun e => e.amount)).sum > payment.amount then
    .error (.businessValidation "Somma allocazioni supera importo pagamento")
  else
    match manualLoop payment invoices entries with
    | .error err => .error err
    | .ok allocs => flushAllocations allocs

/-- Insertion into a list sorted by `le`. -/
def insertLe {α : Type} (le : α → α → Bool) (a : α) : List α → List α
  | [] => [a]
  | b :: l => if le a b then a :: b :: l else b :: insertLe le a l

/-- Insertion sort by `le` (the `ORDER BY` of the allocation queries). -/
def sortLe {α : Type} (le : α → α → Bool) : List α → List α
  | [] => []
  | a :: l => insertLe le a (sortLe le l)

/-- `ORDER BY invoice_date ASC` (the `fifo` strategy). -/
def fifoLe (i j : LedgerInvoice) : Bool := decide (i.invoiceDate ≤ j.invoiceDate)

/-- `ORDER BY (due_date < today) DESC, invoice_date ASC` (the
`overdue_first` strategy): overdue invoices first, then by date. -/
def overdueLe (today : ℤ) (i j : LedgerInvoice) : Bool :=
  let ki : ℕ := if i.dueDate < today then 0 else 1
  let kj : ℕ := if j.dueDate < today then 0 else 1
  decide (ki < kj) || (decide (ki = kj) && decide (i.invoiceDate ≤ j.invoiceDate))

/-- The greedy loop shared by `fifo` and `overdue_first`: allocate
`min(remaining, invoice.remaining_amount)` to each open invoice until
the payment is exhausted. -/
def greedyAllocate (pay : ℚ) : List LedgerInvoice → List (ℕ × ℚ)
  | [] => []
  | i :: rest =>
    if pay ≤ 0 then []
    else
      let a := min pay (ledgerRemaining i)
      (i.id, a) :: greedyAllocate (pay - a) rest

/-- The automatic strategies load the client's invoices in the
strategy's order and keep the ones with `remaining_amount > 0`. -/
def openInvoices (le : LedgerInvoice → LedgerInvoice → Bool)
    (payment : PaymentHead) (invoices : List LedgerInvoice) :
    List LedgerInvoice :=
  (sortLe le (invoices.filter (fun i => i.clientId == payment.clientId))).filter
    (fun i => decide (ledgerRemaining i > 0))

/-- The shared tail of the automatic strategies over the open invoices:
fail if none is open, otherwise run the greedy loop (leftover is only
logged) and flush. -/
def allocateAuto (le : LedgerInvoice → LedgerInvoice → Bool)
    (payment : PaymentHead) (invoices : List LedgerInvoice) :
    Except ServiceError (List (ℕ × ℚ)) :=
  if (openInvoices le payment invoices).isEmpty then
    .error (.businessValidation "Nessuna fattura aperta da pagare per questo cliente")
  else
    flushAllocations (greedyAllocate payment.amount (openInvoices le payment invoices))

/-- `_allocate_payment`'s strategy dispatch. -/
def allocatePayment (strategy : String) (today : ℤ) (payment : PaymentHead)
    (invoices : List LedgerInvoice) (entries : List ManualEntry) :
    Except ServiceError (List (ℕ × ℚ)) :=
  if strategy = "manual" then allocateManual payment invoices entries
  else if strategy = "fifo" then allocateAuto fifoLe payment invoices
  else if strategy = "overdue_first" then allocateAuto (overdueLe today) payment invoices
  else .error (.businessValidation "Strategia allocazione non supportata")

/-! ## Invoice builder (`create_from_work_order`,
app/services/invoice_service.py 205-481).  The work order's items and
part usages are flattened into `RawLine`s carrying the per-line VAT rate
as the code resolves it (`effective_vat_rate`, or the part's own stored
rate); `isVatExempt` is the regime/exemption outcome of lines 183-203. -/

/-- A candidate invoice line: quantity, unit price and the per-line VAT
rate. -/
structure RawLine where
  quantity : ℚ
  unitPrice : ℚ
  vatRate : ℚ
deriving DecidableEq, Repr

/-- An intent declaration as the builder reads it
(`app/models/intent_declaration.py`). -/
structure IntentDecl where
  amountLimit : ℚ
  usedAmount : ℚ
deriving DecidableEq, Repr

/-- `IntentDeclaration.remaining_amount = amount_limit - used_amount`. -/
def intentRemaining (d : IntentDecl) : ℚ := d.amountLimit - d.usedAmount

/-- The builder's input after the client lookups: lines, the client's
default discount percent, the regime exemption flag and code, the active
unexpired intent declaration if any, and the fiscal constants. -/
structure BuildInput where
  lines : List RawLine
  defaultDiscountPercent : ℚ
  isVatExempt : Bool
  exemptionCode : Option String
  intent : Option IntentDecl
  stampDutyThreshold : ℚ
  stampDutyAmount : ℚ
deriving DecidableEq, Repr

/-- A persisted `InvoiceLine`: the discount amount is stored rounded. -/
structure BuiltLine where
  quantity : ℚ
  unitPrice : ℚ
  discountPercent : ℚ
  discountAmount : ℚ
  vatRate : ℚ
deriving DecidableEq, Repr

/-- `InvoiceLine.subtotal` (app/models/invoice.py 456-466):
`(quantity*unit_price - discount_amount)` rounded, over the **stored**
(already rounded) discount amount. -/
def builtLineSubtotal (l : BuiltLine) : ℚ :=
  roundCents (l.quantity * l.unitPrice - l.discountAmount)

/-- `item_subtotal = quantity * unit_price`. -/
def lineGross (l : RawLine) : ℚ := l.quantity * l.unitPrice

/-- The unrounded per-line discount: computed only when the percent is
positive. -/
def lineDiscountAmount (dPct : ℚ) (l : RawLine) : ℚ :=
  if dPct > 0 then lineGross l * dPct / 100 else 0

/-- The unrounded per-line net amount entering the subtotal
accumulator. -/
def lineNet (dPct : ℚ) (l : RawLine) : ℚ := lineGross l - lineDiscountAmount dPct l

/-- The `subtotal` accumulator before rounding: the sum of the unrounded
per-line net amounts. -/
def rawSubtotal (input : BuildInput) : ℚ :=
  (input.lines.map (lineNet input.defaultDiscountPercent)).sum

/-- The `total_vat` accumulator before rounding: per-line VAT is computed
on the unrounded net amount and accumulated unrounded. -/
def rawVat (input : BuildInput) : ℚ :=
  (input.lines.map (fun l => lineNet input.defaultDiscountPercent l * l.vatRate / 100)).sum

/-- The `exempt_subtotal` accumulator: net amounts of zero-rated lines. -/
def rawExempt (input : BuildInput) : ℚ :=
  (input.lines.map (fun l =>
    if l.vatRate = 0 then lineNet input.defaultDiscountPercent l else 0)).sum

/-- The rounded invoice subtotal. -/
def buildSubtotal (input : BuildInput) : ℚ := roundCents (rawSubtotal input)

/-- The preliminary `vat_amount` (zero under a regime exemption,
otherwise the aggregate-rounded accumulator). -/
def preliminaryVat (input : BuildInput) : ℚ :=
  if input.isVatExempt then 0 else roundCents (rawVat input)

/-- The preliminary `total = (subtotal + vat_amount).quantize(...)`,
before the intent declaration and the stamp duty. -/
def preliminaryTotal (input : BuildInput) : ℚ :=
  roundCents (buildSubtotal input + preliminaryVat input)

/-- The persisted `InvoiceLine` for a candidate line (rate overridden to
zero when the intent declaration applies). -/
def builtLine (dPct : ℚ) (rateOverride : Option ℚ) (l : RawLine) : BuiltLine :=
  { quantity := l.quantity
    unitPrice := l.unitPrice
    discountPercent := dPct
    discountAmount := roundCents (lineDiscountAmount dPct l)
    vatRate := match rateOverride with
      | some r => r
      | none => l.vatRate }

/-- The persisted invoice as `create_from_work_order` assembles it, plus
the intent declaration's `used_amount` after the build when one was
applied. -/
structure BuildResult where
  lines : List BuiltLine
  subtotal : ℚ
  vatAmount : ℚ
  total : ℚ
  exemptSubtotal : ℚ
  stampDutyApplied : Bool
  stampDutyAmount : ℚ
  vatExemption : Bool
  exemptionCode : Option String
  intentUsedAfter : Option ℚ
deriving DecidableEq, Repr

/-- The tail of the builder: the stamp-duty step (applied exactly when
the exempt subtotal strictly exceeds the threshold) over the values the
earlier steps produced. -/
def finishBuild (input : BuildInput) (lines : List BuiltLine)
    (subtotal vat exempt total : ℚ) (isExempt : Bool) (code : Option String)
    (usedAfter : Option ℚ) : BuildResult :=
  if exempt > input.stampDutyThreshold then
    { lines := lines, subtotal := subtotal, vatAmount := vat, total := total + input.stampDutyAmount
      exemptSubtotal := exempt, stampDutyApplied := true
      stampDutyAmount := input.stampDutyAmount, vatExemption := isExempt
      exemptionCode := code, intentUsedAfter := usedAfter }
  else
    { lines := lines, subtotal := subtotal, vatAmount := vat, total := total
      exemptSubtotal := exempt, stampDutyApplied := false, stampDutyAmount := 0
      vatExemption := isExempt, exemptionCode := code, intentUsedAfter := usedAfter }

/-- `create_from_work_order`'s monetary pipeline: accumulate the lines,
reject a non-positive subtotal, compute the preliminary VAT and total,
apply the intent declaration (consume the plafond or fail), then the
stamp duty. -/
def createInvoiceTotals (input : BuildInput) : Except ServiceError BuildResult :=
  if rawSubtotal input ≤ 0 then
    .error (.businessValidation "L'ordine di lavoro non ha importi da fatturare")
  else
    match input.intent, input.isVatExempt with
    | some d, false =>
      if intentRemaining d ≥ preliminaryTotal input then
        .ok (finishBuild input
          (input.lines.map (builtLine input.defaultDiscountPercent (some 0)))
          (buildSubtotal input) 0 (buildSubtotal input) (buildSubtotal input)
          true (some "N3.5")
          (some (roundCents (d.usedAmount + buildSubtotal input))))
      else
        .error (.businessValidation "supera il plafond residuo della dichiarazione di intento")
    | _, _ =>
      .ok (finishBuild input
        (input.lines.map (builtLine input.defaultDiscountPercent none))
        (buildSubtotal input) (preliminaryVat input)
        (if input.isVatExempt then buildSubtotal input else rawExempt input)
        (preliminaryTotal input) input.isVatExempt input.exemptionCode none)

/-! ## Credit note engine (`app/services/credit_note_service.py`) -/

/-- An invoice line as the credit note engine reads it back. -/
structure CNInvoiceLine where
  lineId : ℕ
  quantity : ℚ
  unitPrice : ℚ
  vatRate : ℚ
  discountPercent : ℚ
  discountAmount : ℚ
deriving DecidableEq, Repr

/-- The source invoice of a reversal, with the totals of its already
existing credit notes. -/
structure CNInvoice where
  total : ℚ
  stampDutyApplied : Bool
  stampDutyAmount : ℚ
  lines : List CNInvoiceLine
deriving DecidableEq, Repr

/-- The credit-note line amounts of a reversal of `qty` units of an
original line: gross on the negated unit price, discount recomputed from
the percent, both rounded per line. -/
def cnLineSub (qty price dPct : ℚ) : ℚ :=
  roundCents (qty * (-price) - qty * (-price) * dPct / 100)

/-- The per-line VAT of a credit-note line (on the rounded line
subtotal). -/
def cnLineVat (qty price dPct rate : ℚ) : ℚ :=
  roundCents (cnLineSub qty price dPct * rate / 100)

/-- The monetary outcome of a credit note: (subtotal, vat_amount,
total). -/
structure CNTotals where
  subtotal : ℚ
  vatAmount : ℚ
  total : ℚ
deriving DecidableEq, Repr

/-- `CreditNoteService.create_from_invoice` (full reversal): rejected
only when the already credited amount reaches the invoice total, then
every line is copied with the unit price negated and the stamp duty
negated. -/
def createFromInvoice (inv : CNInvoice) (existingTotals : List ℚ) :
    Except ServiceError CNTotals :=
  let credited := (existingTotals.map (fun t => |t|)).sum
  if credited ≥ inv.total then
    .error (.businessValidation "la fattura è già stata completamente stornata")
  else
    let stampDuty := if inv.stampDutyApplied then -inv.stampDutyAmount else 0
    let subtotal := (inv.lines.map
      (fun l => cnLineSub l.quantity l.unitPrice l.discountPercent)).sum
    let vat := (inv.lines.map
      (fun l => cnLineVat l.quantity l.unitPrice l.discountPercent l.vatRate)).sum
    .ok ⟨subtotal, vat, subtotal + vat + stampDuty⟩

/-- One requested line of a reversal of part of an invoice. -/
structure CNRequestLine where
  invoiceLineId : ℕ
  quantity : ℚ
deriving DecidableEq, Repr

/-- The line loop of `CreditNoteService.create_partial`: each requested
line must exist and its quantity must not exceed the original's. -/
def cnRequestSums (invLines : List CNInvoiceLine) :
    List CNRequestLine → Except ServiceError (ℚ × ℚ)
  | [] => .ok (0, 0)
  | r :: rest =>
    match (invLines.filter (fun l => l.lineId == r.invoiceLineId)).head? with
    | none => .error (.businessValidation "Riga fattura non trovata")
    | some orig =>
      if r.quantity > orig.quantity then
        .error (.businessValidation "Quantità da stornare maggiore della quantità originale")
      else
        match cnRequestSums invLines rest with
        | .error err => .error err
        | .ok (s, v) =>
          .ok (cnLineSub r.quantity orig.unitPrice orig.discountPercent + s,
            cnLineVat r.quantity orig.unitPrice orig.discountPercent orig.vatRate + v)

/-- `CreditNoteService.create_partial`: the line loop, then the
cumulative cap — rejected when the already credited amount plus the new
note's absolute total would exceed the invoice total; the stamp duty
is not carried over. -/
def createPartialCreditNote (inv : CNInvoice) (existingTotals : List ℚ)
    (request : List CNRequestLine) : Except ServiceError CNTotals :=
  match cnRequestSums inv.lines request with
  | .error err => .error err
  | .ok (subtotal, vat) =>
    let credited := (existingTotals.map (fun t => |t|)).sum
    if credited + |subtotal + vat| > inv.total then
      .error (.businessValidation "L'importo totale stornato supera il totale della fattura originale")
    else
      .ok ⟨subtotal, vat, subtotal + vat⟩

/-! ## Deposits (`DepositService.apply_to_invoice`,
app/services/deposit_service.py 30-76) -/

/-- The deposit lifecycle states. -/
inductive DepStatus where
  | pending
  | applied
  | refunded
deriving DecidableEq, Repr

/-- A `deposits` row as `apply_to_invoice` reads it. -/
structure DepositRec where
  clientId : ℕ
  amount : ℚ
  status : DepStatus
deriving DecidableEq, Repr

/-- The invoice `apply_to_invoice` loads: only `total` is ever read —
`paidAmount` (the sum of its existing allocations) is carried to state
what the code ignores. -/
structure DepInvoice where
  id : ℕ
  total : ℚ
  paidAmount : ℚ
deriving DecidableEq, Repr

/-- What a successful application persists: one `Payment` and one
`PaymentAllocation`, both of the full deposit amount, and the deposit's
new status. -/
structure ApplyResult where
  paymentAmount : ℚ
  allocationAmount : ℚ
  depositStatusAfter : DepStatus
deriving DecidableEq, Repr

/-- `DepositService.apply_to_invoice`: requires the deposit pending and
the invoice found, rejects only `deposit.amount > invoice.total`, and on
success creates one payment plus a single allocation of the full deposit
amount — the invoice's remaining amount is never consulted. -/
def applyToInvoice (dep : DepositRec) (inv : Option DepInvoice) :
    Except ServiceError ApplyResult :=
  if dep.status ≠ DepStatus.pending then
    .error (.businessValidation "La caparra non è in stato pending")
  else
    match inv with
    | none => .error (.notFound "Fattura non trovata")
    | some i =>
      if dep.amount > i.total then
        .error (.businessValidation "L'importo della caparra supera il totale della fattura")
      else
        .ok ⟨dep.amount, dep.amount, DepStatus.applied⟩

end Gestionale

namespace Gestionale

/-! ## Helper lemmas about the rounding -/

theorem isCents_roundCents (x : ℚ) : IsCents (roundCents x) := by
  unfold roundCents
  split
  · exact ⟨_, rfl⟩
  · exact ⟨-⌊-x * 100 + 1 / 2⌋, by push_cast; ring⟩

theorem roundCents_of_isCents {x : ℚ} (h : IsCents x) : roundCents x = x := by
  obtain ⟨k, rfl⟩ := h
  unfold roundCents
  have hfloor : ∀ m : ℤ, ⌊((m : ℚ) : ℚ) + 1 / 2⌋ = m := by
    intro m
    rw [add_comm, Int.floor_add_int]
    norm_num
  split
  · rw [show ((k : ℚ) / 100 * 100 + 1 / 2 : ℚ) = (k : ℚ) + 1 / 2 by ring, hfloor]
  · rw [show (-((k : ℚ) / 100) * 100 + 1 / 2 : ℚ) = ((-k : ℤ) : ℚ) + 1 / 2 by
        push_cast; ring, hfloor]
    push_cast
    ring

theorem IsCents.add {x y : ℚ} (hx : IsCents x) (hy : IsCents y) : IsCents (x + y) := by
  obtain ⟨k, rfl⟩ := hx
  obtain ⟨m, rfl⟩ := hy
  exact ⟨k + m, by push_cast; ring⟩

theorem roundCents_nonneg {x : ℚ} (h : 0 ≤ x) : 0 ≤ roundCents x := by
  unfold roundCents
  rw [if_pos h]
  have : (0 : ℤ) ≤ ⌊x * 100 + 1 / 2⌋ := by
    apply Int.floor_nonneg.mpr
    positivity
  positivity

/-! ## C1 -/

/-- C1. The derived invoice status follows the claimed precedence
(credited, then paid, then overdue, then partial, then unpaid), and on
the claim's concrete inputs: total 100 / paid 50 / due date in the past
is "overdue" and not "partial"; total 100 / paid 50 / due date in the
future is "partial"; total 100 / paid 100 is "paid" whatever the due
date. -/
theorem invoiceStatus_precedence :
    (∀ (today : ℤ) (s : StatusInput), invoiceStatus today s = claimedStatus today s) ∧
    invoiceStatus 1 ⟨100, 0, [50], 0⟩ = "overdue" ∧
    invoiceStatus 1 ⟨100, 0, [50], 0⟩ ≠ "partial" ∧
    invoiceStatus 1 ⟨100, 2, [50], 0⟩ = "partial" ∧
    (∀ d : ℤ, invoiceStatus 1 ⟨100, d, [100], 0⟩ = "paid") := by
  refine ⟨fun today s => rfl, ?_, ?_, ?_, ?_⟩
  · norm_num [invoiceStatus, paidAmount, remainingAmount]
  · norm_num [invoiceStatus, paidAmount, remainingAmount]
    decide
  · norm_num [invoiceStatus, paidAmount, remainingAmount]
  · intro d
    norm_num [invoiceStatus, paidAmount, remainingAmount]

/-! ## C5 -/

/-- C5 counterexample. At 9999 existing numbers the generator raises the
capacity error as a `ConflictError` (matching its own docstring), not as
the business-validation kind the claim requires. -/
theorem invoiceNumber_capacity_is_conflict :
    generateInvoiceNumber 2025 (some 9999) =
      .error (.conflict "Limite numerazione fatture raggiunto per l'anno 2025") ∧
    isBusinessValidation (generateInvoiceNumber 2025 (some 9999)) = false := by
  constructor <;> rfl

/-- C5 amended. The sequence allocators return `period/0001` (zero-padded
to 4 digits) when no document exists for the period, and when the
increment would exceed 9999 they fail with a capacity `ConflictError`
(never a wraparound): the capacity error is classified as conflict, not
business-validation. -/
theorem sequenceAllocator_firstAndCapacity :
    (∀ year : ℕ,
      generateInvoiceNumber year none = .ok (numberString "" year 1) ∧
      generateCreditNoteNumber year none = .ok (numberString "NC-" year 1)) ∧
    pad4 1 = "0001" ∧
    generateInvoiceNumber 2025 none = .ok "2025/0001" ∧
    generateCreditNoteNumber 2025 none = .ok "NC-2025/0001" ∧
    (∀ year n : ℕ, 9999 ≤ n →
      generateInvoiceNumber year (some n) =
        .error (.conflict ("Limite numerazione fatture raggiunto per l'anno " ++ toString year)) ∧
      generateCreditNoteNumber year (some n) =
        .error (.conflict ("Limite numerazione note di credito raggiunto per l'anno " ++ toString year))) := by
  refine ⟨?_, rfl, rfl, rfl, ?_⟩
  · intro year
    constructor <;> rfl
  · intro year n h
    constructor
    · simp only [generateInvoiceNumber, nextNumber]
      rw [if_pos (by omega)]
    · simp only [generateCreditNoteNumber, nextNumber]
      rw [if_pos (by omega)]

/-- C5 witness: the amended theorem applied at year 2026 with 9999
numbers already issued. -/
theorem sequenceAllocator_firstAndCapacity_witness :
    9999 ≤ 9999 ∧
    generateInvoiceNumber 2026 (some 9999) =
      .error (.conflict ("Limite numerazione fatture raggiunto per l'anno " ++ toString 2026)) :=
  ⟨by norm_num,
    (sequenceAllocator_firstAndCapacity.2.2.2.2 2026 9999 (by norm_num)).1⟩

/-! ## C2 -/

/-- C2 (code bug). The exposure query of `create_from_work_order` sums
`Payment.amount` across the payment–allocation–invoice join, so a single
payment of 800 split into two allocations of 400 against two invoices of
the same party enters the paid total as 1600, not 800: the code
disagrees with the allocation-sum semantics the spec states, making the
computed exposure 0 instead of 800 on this ledger. -/
theorem creditExposure_joinDoubleCounts :
    totalPaidJoin 7 [⟨1, 800⟩] [⟨1, 10, 400⟩, ⟨1, 20, 400⟩]
      [⟨10, 7, 1000⟩, ⟨20, 7, 600⟩] = 1600 ∧
    allocationPaidTotal 7 [⟨1, 10, 400⟩, ⟨1, 20, 400⟩]
      [⟨10, 7, 1000⟩, ⟨20, 7, 600⟩] = 800 ∧
    currentExposure 7 [⟨1, 800⟩] [⟨1, 10, 400⟩, ⟨1, 20, 400⟩]
      [⟨10, 7, 1000⟩, ⟨20, 7, 600⟩] = 0 ∧
    totalInvoiced 7 [⟨10, 7, 1000⟩, ⟨20, 7, 600⟩] -
      allocationPaidTotal 7 [⟨1, 10, 400⟩, ⟨1, 20, 400⟩]
        [⟨10, 7, 1000⟩, ⟨20, 7, 600⟩] = 800 ∧
    (1600 : ℚ) ≠ 800 := by
  refine ⟨?_, ?_, ?_, ?_, by norm_num⟩ <;>
    norm_num [totalPaidJoin, allocationPaidTotal, currentExposure, totalInvoiced]

/-! ## C3 -/

/-- C3 (code bug). With `autoflush=False` the manual-allocation loop
validates every batch entry against the invoice's persisted remaining
amount only: against an invoice with remaining 100 the batch
[(A, 80), (A, 80)] passes the per-entry validation on both entries
(the claim requires the second to fail against an effective remaining of
20), and the whole call ends in the unique-index `IntegrityError` at
flush, not in a business-validation rejection; the batch
[(A, 60), (A, 40)], which the claim requires to succeed, ends in the
same `IntegrityError`. -/
theorem manualAllocation_staleRemaining :
    manualLoop ⟨7, 160⟩ [⟨1, 7, 0, 0, 100, 0⟩] [⟨1, 80⟩, ⟨1, 80⟩] =
      .ok [(1, 80), (1, 80)] ∧
    allocateManual ⟨7, 160⟩ [⟨1, 7, 0, 0, 100, 0⟩] [⟨1, 80⟩, ⟨1, 80⟩] =
      .error (.integrity "duplicate key value violates unique constraint idx_payment_invoice_unique") ∧
    isBusinessValidation
      (allocateManual ⟨7, 160⟩ [⟨1, 7, 0, 0, 100, 0⟩] [⟨1, 80⟩, ⟨1, 80⟩]) = false ∧
    allocateManual ⟨7, 100⟩ [⟨1, 7, 0, 0, 100, 0⟩] [⟨1, 60⟩, ⟨1, 40⟩] =
      .error (.integrity "duplicate key value violates unique constraint idx_payment_invoice_unique") := by
  have h80 : manualLoop ⟨7, 160⟩ [⟨1, 7, 0, 0, 100, 0⟩] [⟨1, 80⟩, ⟨1, 80⟩] =
      .ok [(1, 80), (1, 80)] := by
    norm_num [manualLoop, ledgerRemaining, List.filter]
  have h6040 : manualLoop ⟨7, 100⟩ [⟨1, 7, 0, 0, 100, 0⟩] [⟨1, 60⟩, ⟨1, 40⟩] =
      .ok [(1, 60), (1, 40)] := by
    norm_num [manualLoop, ledgerRemaining, List.filter]
  refine ⟨h80, ?_, ?_, ?_⟩
  · norm_num [allocateManual, h80, flushAllocations, hasDupId]
  · norm_num [allocateManual, h80, flushAllocations, hasDupId, isBusinessValidation]
  · norm_num [allocateManual, h6040, flushAllocations, hasDupId]

/-! ## C10 -/

/-- C10. `apply_to_invoice` validates a pending deposit only against the
invoice's total: whenever `deposit.amount <= invoice.total` it succeeds
and persists one payment plus a single allocation of the full deposit
amount, whatever the invoice's existing paid amount — concretely, a
deposit of 50 applies to an invoice of total 100 that is already fully
paid, pushing the invoice's allocation sum to 150. -/
theorem depositApply_total_only :
    (∀ (dep : DepositRec) (i : DepInvoice),
      dep.status = DepStatus.pending → dep.amount ≤ i.total →
      applyToInvoice dep (some i) = .ok ⟨dep.amount, dep.amount, DepStatus.applied⟩) ∧
    applyToInvoice ⟨7, 50, DepStatus.pending⟩ (some ⟨1, 100, 100⟩) =
      .ok ⟨50, 50, DepStatus.applied⟩ ∧
    (DepInvoice.mk 1 100 100).paidAmount + 50 > (DepInvoice.mk 1 100 100).total := by
  have hmain : ∀ (dep : DepositRec) (i : DepInvoice),
      dep.status = DepStatus.pending → dep.amount ≤ i.total →
      applyToInvoice dep (some i) = .ok ⟨dep.amount, dep.amount, DepStatus.applied⟩ := by
    intro dep i hs ha
    unfold applyToInvoice
    rw [if_neg (by simp [hs])]
    exact if_neg (not_lt.mpr ha)
  refine ⟨hmain, hmain _ _ rfl (by norm_num), by norm_num⟩

/-! ## Helper lemmas about the invoice builder -/

theorem isCents_zero : IsCents 0 := ⟨0, by norm_num⟩

theorem isCents_buildSubtotal (input : BuildInput) : IsCents (buildSubtotal input) :=
  isCents_roundCents _

theorem isCents_preliminaryVat (input : BuildInput) : IsCents (preliminaryVat input) := by
  unfold preliminaryVat
  split
  · exact isCents_zero
  · exact isCents_roundCents _

theorem preliminaryTotal_eq (input : BuildInput) :
    preliminaryTotal input = buildSubtotal input + preliminaryVat input :=
  roundCents_of_isCents ((isCents_buildSubtotal input).add (isCents_preliminaryVat input))

theorem finishBuild_fields (input : BuildInput) (lines : List BuiltLine)
    (s v e t : ℚ) (ie : Bool) (c : Option String) (u : Option ℚ) :
    (finishBuild input lines s v e t ie c u).subtotal = s ∧
    (finishBuild input lines s v e t ie c u).vatAmount = v ∧
    (finishBuild input lines s v e t ie c u).exemptSubtotal = e ∧
    (finishBuild input lines s v e t ie c u).vatExemption = ie ∧
    (finishBuild input lines s v e t ie c u).exemptionCode = c ∧
    (finishBuild input lines s v e t ie c u).intentUsedAfter = u ∧
    (finishBuild input lines s v e t ie c u).lines = lines ∧
    (finishBuild input lines s v e t ie c u).stampDutyApplied =
      decide (e > input.stampDutyThreshold) ∧
    (finishBuild input lines s v e t ie c u).stampDutyAmount =
      (if e > input.stampDutyThreshold then input.stampDutyAmount else 0) ∧
    (finishBuild input lines s v e t ie c u).total =
      (if e > input.stampDutyThreshold then t + input.stampDutyAmount else t) := by
  unfold finishBuild
  by_cases hst : e > input.stampDutyThreshold
  · rw [if_pos hst]
    simp [hst]
  · rw [if_neg hst]
    simp [hst]

/-- Everything a successful build satisfies, extracted once: the raw
subtotal was positive, the persisted subtotal is the rounded
accumulator, and the stamp-duty flag, amount and total decomposition
hold. -/
theorem finishBuild_spec (input : BuildInput) (lines : List BuiltLine)
    (s v e t : ℚ) (ie : Bool) (c : Option String) (u : Option ℚ)
    (ht : t = s + v) :
    (finishBuild input lines s v e t ie c u).subtotal = s ∧
    (finishBuild input lines s v e t ie c u).stampDutyApplied =
      decide ((finishBuild input lines s v e t ie c u).exemptSubtotal >
        input.stampDutyThreshold) ∧
    (finishBuild input lines s v e t ie c u).stampDutyAmount =
      (if (finishBuild input lines s v e t ie c u).exemptSubtotal >
          input.stampDutyThreshold then input.stampDutyAmount else 0) ∧
    (finishBuild input lines s v e t ie c u).total =
      (finishBuild input lines s v e t ie c u).subtotal +
        (finishBuild input lines s v e t ie c u).vatAmount +
        (finishBuild input lines s v e t ie c u).stampDutyAmount := by
  unfold finishBuild
  by_cases hst : e > input.stampDutyThreshold
  · rw [if_pos hst]
    refine ⟨rfl, by simp [hst], by simp [hst], ?_⟩
    simp only [ht]
    try ring
  · rw [if_neg hst]
    refine ⟨rfl, by simp [hst], by simp [hst], ?_⟩
    simp only [ht]
    try ring

/-- Everything a successful build satisfies, extracted once: the raw
subtotal was positive, the persisted subtotal is the rounded
accumulator, and the stamp-duty flag, amount and total decomposition
hold. -/
theorem createInvoiceTotals_ok_cases (input : BuildInput) (r : BuildResult)
    (h : createInvoiceTotals input = .ok r) :
    0 < rawSubtotal input ∧
    r.subtotal = buildSubtotal input ∧
    r.stampDutyApplied = decide (r.exemptSubtotal > input.stampDutyThreshold) ∧
    r.stampDutyAmount =
      (if r.exemptSubtotal > input.stampDutyThreshold then input.stampDutyAmount else 0) ∧
    r.total = r.subtotal + r.vatAmount + r.stampDutyAmount := by
  unfold createInvoiceTotals at h
  by_cases hraw : rawSubtotal input ≤ 0
  · rw [if_pos hraw] at h; exact absurd h (by simp)
  · rw [if_neg hraw] at h
    refine And.intro (lt_of_not_le hraw) ?_
    obtain ⟨lines, dPct, ie, code, intent, thr, stampAmt⟩ := input
    cases intent with
    | some d =>
      cases ie with
      | false =>
        simp only [] at h
        by_cases hrem : intentRemaining d ≥
            preliminaryTotal ⟨lines, dPct, false, code, some d, thr, stampAmt⟩
        · rw [if_pos hrem] at h
          injection h with h'
          subst h'
          exact finishBuild_spec _ _ _ _ _ _ _ _ _ (by ring)
        · rw [if_neg hrem] at h; exact absurd h (by simp)
      | true =>
        simp only [] at h
        injection h with h'
        subst h'
        exact finishBuild_spec _ _ _ _ _ _ _ _ _ (preliminaryTotal_eq _)
    | none =>
      cases ie with
      | false =>
        simp only [] at h
        injection h with h'
        subst h'
        exact finishBuild_spec _ _ _ _ _ _ _ _ _ (preliminaryTotal_eq _)
      | true =>
        simp only [] at h
        injection h with h'
        subst h'
        exact finishBuild_spec _ _ _ _ _ _ _ _ _ (preliminaryTotal_eq _)

/-! ## C4 -/

/-- C4 counterexample. Two identical lines of quantity 1, unit price
0.33, VAT 22% under a 10% default discount: the builder accumulates the
unrounded nets (0.297 each) and rounds the aggregate to subtotal 0.59,
while each persisted line's `subtotal` rounds its stored rounded
discount (0.03), giving 0.30 per line and a line sum of 0.60 — so
`subtotal == Σ(line.subtotal)` fails and the per-line amounts are not
rounded half-up at each step of the aggregate. -/
theorem invoiceSubtotal_ne_sumLines :
    createInvoiceTotals
      ⟨[⟨1, 33/100, 22⟩, ⟨1, 33/100, 22⟩], 10, false, none, none, 7747/100, 2⟩ =
      .ok ⟨[⟨1, 33/100, 10, 3/100, 22⟩, ⟨1, 33/100, 10, 3/100, 22⟩],
        59/100, 13/100, 72/100, 0, false, 0, false, none, none⟩ ∧
    (([⟨1, 33/100, 10, 3/100, 22⟩, ⟨1, 33/100, 10, 3/100, 22⟩] : List BuiltLine).map
      builtLineSubtotal).sum = 60/100 ∧
    (59/100 : ℚ) ≠ 60/100 := by
  refine ⟨?_, ?_, by norm_num⟩
  · norm_num [createInvoiceTotals, finishBuild, buildSubtotal, preliminaryVat,
      preliminaryTotal, rawSubtotal, rawVat, rawExempt, lineNet, lineGross,
      lineDiscountAmount, builtLine, roundCents]
  · norm_num [builtLineSubtotal, roundCents]

/-- C4 amended. For every invoice the builder produces,
`total = subtotal + vat_amount + stamp_duty_amount` holds exactly, where
`subtotal` is the half-up cent rounding of the sum of the **unrounded**
per-line net amounts (and `vat_amount` likewise rounds the aggregate VAT
accumulator): the rounding happens at the aggregate, so `subtotal` can
differ from the sum of the per-line rounded subtotals. -/
theorem invoiceTotal_decomposition :
    ∀ (input : BuildInput) (r : BuildResult),
      createInvoiceTotals input = .ok r →
      r.subtotal = roundCents (rawSubtotal input) ∧
      r.total = r.subtotal + r.vatAmount + r.stampDutyAmount := by
  intro input r h
  have hc := createInvoiceTotals_ok_cases input r h
  exact ⟨hc.2.1, hc.2.2.2.2⟩

/-- C4 witness: the amended theorem applied to a one-line invoice of 100
at VAT 22%. -/
theorem invoiceTotal_decomposition_witness :
    createInvoiceTotals ⟨[⟨1, 100, 22⟩], 0, false, none, none, 7747/100, 2⟩ =
      .ok ⟨[⟨1, 100, 0, 0, 22⟩], 100, 22, 122, 0, false, 0, false, none, none⟩ ∧
    ((BuildResult.mk [⟨1, 100, 0, 0, 22⟩] 100 22 122 0 false 0 false none none).subtotal =
      roundCents (rawSubtotal ⟨[⟨1, 100, 22⟩], 0, false, none, none, 7747/100, 2⟩) ∧
    (BuildResult.mk [⟨1, 100, 0, 0, 22⟩] 100 22 122 0 false 0 false none none).total =
      (BuildResult.mk [⟨1, 100, 0, 0, 22⟩] 100 22 122 0 false 0 false none none).subtotal +
      (BuildResult.mk [⟨1, 100, 0, 0, 22⟩] 100 22 122 0 false 0 false none none).vatAmount +
      (BuildResult.mk [⟨1, 100, 0, 0, 22⟩] 100 22 122 0 false 0 false none none).stampDutyAmount) := by
  have h : createInvoiceTotals ⟨[⟨1, 100, 22⟩], 0, false, none, none, 7747/100, 2⟩ =
      .ok ⟨[⟨1, 100, 0, 0, 22⟩], 100, 22, 122, 0, false, 0, false, none, none⟩ := by
    norm_num [createInvoiceTotals, finishBuild, buildSubtotal, preliminaryVat,
      preliminaryTotal, rawSubtotal, rawVat, rawExempt, lineNet, lineGross,
      lineDiscountAmount, builtLine, roundCents]
  exact ⟨h, invoiceTotal_decomposition _ _ h⟩

/-! ## C6 -/

/-- C6 counterexample. One line of 100 at VAT 22% under an active
declaration of limit 1000 (used 0): eligibility is checked against the
VAT-inclusive preliminary total 122, the declaration's `used_amount`
rises to 100 (the pre-stamp-duty total), while the persisted invoice's
total is 102 (stamp duty applies to the now fully exempt subtotal) — so
`used_amount` does **not** increase by the invoice's total:
0 + 102 ≠ 100. -/
theorem intentUsed_increase_ne_total :
    createInvoiceTotals
      ⟨[⟨1, 100, 22⟩], 0, false, none, some ⟨1000, 0⟩, 7747/100, 2⟩ =
      .ok ⟨[⟨1, 100, 0, 0, 0⟩], 100, 0, 102, 100, true, 2, true,
        some "N3.5", some 100⟩ ∧
    (BuildResult.mk [⟨1, 100, 0, 0, 0⟩] 100 0 102 100 true 2 true
      (some "N3.5") (some 100)).intentUsedAfter = some 100 ∧
    (BuildResult.mk [⟨1, 100, 0, 0, 0⟩] 100 0 102 100 true 2 true
      (some "N3.5") (some 100)).total = 102 ∧
    (0 : ℚ) + 102 ≠ 100 := by
  refine ⟨?_, rfl, rfl, by norm_num⟩
  norm_num [createInvoiceTotals, finishBuild, buildSubtotal, preliminaryVat,
    preliminaryTotal, rawSubtotal, rawVat, rawExempt, lineNet, lineGross,
    lineDiscountAmount, builtLine, intentRemaining, roundCents]

/-- C6 amended. With an active, unexpired declaration and no other
exemption: eligibility compares the declaration's remaining balance to
the VAT-inclusive **preliminary** total; when the remaining balance is
at least that total the build succeeds with VAT 0, exemption code
"N3.5", and `used_amount` increased by the **pre-stamp-duty** total (the
invoice subtotal), preserving `used_amount <= amount_limit`; when the
remaining balance is below the preliminary total the build fails with a
validation error, never falling back to the default rate. -/
theorem intentDeclaration_application :
    ∀ (input : BuildInput) (d : IntentDecl),
      input.intent = some d → input.isVatExempt = false →
      0 < rawSubtotal input →
      (intentRemaining d < preliminaryTotal input →
        createInvoiceTotals input = .error (.businessValidation
          "supera il plafond residuo della dichiarazione di intento")) ∧
      (intentRemaining d ≥ preliminaryTotal input →
        ∃ r, createInvoiceTotals input = .ok r ∧
          r.vatAmount = 0 ∧ r.vatExemption = true ∧
          r.exemptionCode = some "N3.5" ∧
          r.subtotal = buildSubtotal input ∧
          r.intentUsedAfter = some (roundCents (d.usedAmount + buildSubtotal input)) ∧
          (IsCents d.usedAmount → 0 ≤ rawVat input →
            r.intentUsedAfter = some (d.usedAmount + buildSubtotal input) ∧
            d.usedAmount + buildSubtotal input ≤ d.amountLimit)) := by
  intro input d hI hE hraw
  obtain ⟨lines, dPct, ie, code, intent, thr, stampAmt⟩ := input
  simp only [] at hI hE
  subst hI
  subst hE
  constructor
  · intro hlt
    unfold createInvoiceTotals
    rw [if_neg (not_le.mpr hraw)]
    simp only []
    rw [if_neg (not_le.mpr hlt)]
  · intro hge
    refine ⟨finishBuild ⟨lines, dPct, false, code, some d, thr, stampAmt⟩
      (lines.map (builtLine dPct (some 0)))
      (buildSubtotal ⟨lines, dPct, false, code, some d, thr, stampAmt⟩) 0
      (buildSubtotal ⟨lines, dPct, false, code, some d, thr, stampAmt⟩)
      (buildSubtotal ⟨lines, dPct, false, code, some d, thr, stampAmt⟩)
      true (some "N3.5")
      (some (roundCents (d.usedAmount +
        buildSubtotal ⟨lines, dPct, false, code, some d, thr, stampAmt⟩))), ?_, ?_⟩
    · unfold createInvoiceTotals
      rw [if_neg (not_le.mpr hraw)]
      simp only []
      rw [if_pos hge]
    · obtain ⟨f1, f2, f3, f4, f5, f6, f7, f8, f9, f10⟩ :=
        finishBuild_fields ⟨lines, dPct, false, code, some d, thr, stampAmt⟩
          (lines.map (builtLine dPct (some 0)))
          (buildSubtotal ⟨lines, dPct, false, code, some d, thr, stampAmt⟩) 0
          (buildSubtotal ⟨lines, dPct, false, code, some d, thr, stampAmt⟩)
          (buildSubtotal ⟨lines, dPct, false, code, some d, thr, stampAmt⟩)
          true (some "N3.5")
          (some (roundCents (d.usedAmount +
            buildSubtotal ⟨lines, dPct, false, code, some d, thr, stampAmt⟩)))
      refine ⟨f2, f4, f5, f1, f6, ?_⟩
      intro hCents hVat
      have hsub : IsCents (buildSubtotal ⟨lines, dPct, false, code, some d, thr, stampAmt⟩) :=
        isCents_buildSubtotal _
      have hround : roundCents (d.usedAmount +
          buildSubtotal ⟨lines, dPct, false, code, some d, thr, stampAmt⟩) =
          d.usedAmount + buildSubtotal ⟨lines, dPct, false, code, some d, thr, stampAmt⟩ :=
        roundCents_of_isCents (hCents.add hsub)
      refine ⟨by rw [f6, hround], ?_⟩
      have hv : 0 ≤ preliminaryVat ⟨lines, dPct, false, code, some d, thr, stampAmt⟩ := by
        unfold preliminaryVat
        simp only [Bool.false_eq_true, if_false]
        exact roundCents_nonneg hVat
      have hpre := preliminaryTotal_eq ⟨lines, dPct, false, code, some d, thr, stampAmt⟩
      unfold intentRemaining at hge
      rw [hpre] at hge
      linarith

/-- C6 witness: the amended theorem applied to the one-line invoice of
100 at VAT 22% under the declaration of limit 1000 and used 0. -/
theorem intentDeclaration_application_witness :
    0 < rawSubtotal ⟨[⟨1, 100, 22⟩], 0, false, none, some ⟨1000, 0⟩, 7747/100, 2⟩ ∧
    ((intentRemaining ⟨1000, 0⟩ <
        preliminaryTotal ⟨[⟨1, 100, 22⟩], 0, false, none, some ⟨1000, 0⟩, 7747/100, 2⟩ →
      createInvoiceTotals ⟨[⟨1, 100, 22⟩], 0, false, none, some ⟨1000, 0⟩, 7747/100, 2⟩ =
        .error (.businessValidation
          "supera il plafond residuo della dichiarazione di intento")) ∧
    (intentRemaining ⟨1000, 0⟩ ≥
        preliminaryTotal ⟨[⟨1, 100, 22⟩], 0, false, none, some ⟨1000, 0⟩, 7747/100, 2⟩ →
      ∃ r, createInvoiceTotals
          ⟨[⟨1, 100, 22⟩], 0, false, none, some ⟨1000, 0⟩, 7747/100, 2⟩ = .ok r ∧
        r.vatAmount = 0 ∧ r.vatExemption = true ∧
        r.exemptionCode = some "N3.5" ∧
        r.subtotal = buildSubtotal
          ⟨[⟨1, 100, 22⟩], 0, false, none, some ⟨1000, 0⟩, 7747/100, 2⟩ ∧
        r.intentUsedAfter = some (roundCents ((IntentDecl.mk 1000 0).usedAmount +
          buildSubtotal ⟨[⟨1, 100, 22⟩], 0, false, none, some ⟨1000, 0⟩, 7747/100, 2⟩)) ∧
        (IsCents (IntentDecl.mk 1000 0).usedAmount →
          0 ≤ rawVat ⟨[⟨1, 100, 22⟩], 0, false, none, some ⟨1000, 0⟩, 7747/100, 2⟩ →
          r.intentUsedAfter = some ((IntentDecl.mk 1000 0).usedAmount +
            buildSubtotal ⟨[⟨1, 100, 22⟩], 0, false, none, some ⟨1000, 0⟩, 7747/100, 2⟩) ∧
          (IntentDecl.mk 1000 0).usedAmount +
            buildSubtotal ⟨[⟨1, 100, 22⟩], 0, false, none, some ⟨1000, 0⟩, 7747/100, 2⟩ ≤
            (IntentDecl.mk 1000 0).amountLimit))) :=
  ⟨by norm_num [rawSubtotal, lineNet, lineGross, lineDiscountAmount],
    intentDeclaration_application
      ⟨[⟨1, 100, 22⟩], 0, false, none, some ⟨1000, 0⟩, 7747/100, 2⟩ ⟨1000, 0⟩ rfl rfl
      (by norm_num [rawSubtotal, lineNet, lineGross, lineDiscountAmount])⟩

/-! ## C8 -/

/-- C8. Stamp duty is applied iff the exempt (zero-rated) subtotal
strictly exceeds the configured threshold; when applied, the configured
amount is added to the total, and when not applied the stamp-duty amount
is zero.  At the default threshold 77.47: a fully exempt invoice of
exactly 77.47 gets no stamp duty, and one of 77.48 (one cent above) gets
the configured 2.00 added, for a total of 79.48. -/
theorem stampDuty_strict_threshold :
    (∀ (input : BuildInput) (r : BuildResult),
      createInvoiceTotals input = .ok r →
        ((r.stampDutyApplied = true) ↔ r.exemptSubtotal > input.stampDutyThreshold) ∧
        (r.stampDutyApplied = true →
          r.stampDutyAmount = input.stampDutyAmount ∧
          r.total = r.subtotal + r.vatAmount + input.stampDutyAmount) ∧
        (r.stampDutyApplied = false →
          r.stampDutyAmount = 0 ∧ r.total = r.subtotal + r.vatAmount)) ∧
    createInvoiceTotals ⟨[⟨1, 7747/100, 0⟩], 0, true, some "N4", none, 7747/100, 2⟩ =
      .ok ⟨[⟨1, 7747/100, 0, 0, 0⟩], 7747/100, 0, 7747/100, 7747/100, false, 0,
        true, some "N4", none⟩ ∧
    createInvoiceTotals ⟨[⟨1, 7748/100, 0⟩], 0, true, some "N4", none, 7747/100, 2⟩ =
      .ok ⟨[⟨1, 7748/100, 0, 0, 0⟩], 7748/100, 0, 7948/100, 7748/100, true, 2,
        true, some "N4", none⟩ := by
  refine ⟨?_, ?_, ?_⟩
  · intro input r h
    obtain ⟨-, -, hflag, hamt, htot⟩ := createInvoiceTotals_ok_cases input r h
    constructor
    · rw [hflag]
      exact decide_eq_true_iff
    · constructor
      · intro happ
        rw [hflag] at happ
        have hcond := of_decide_eq_true happ
        rw [hamt, if_pos hcond] at htot ⊢
        exact ⟨rfl, htot⟩
      · intro hnapp
        rw [hflag] at hnapp
        have hcond := of_decide_eq_false hnapp
        rw [hamt, if_neg hcond] at htot ⊢
        exact ⟨rfl, by rw [htot]; ring⟩
  · norm_num [createInvoiceTotals, finishBuild, buildSubtotal, preliminaryVat,
      preliminaryTotal, rawSubtotal, rawVat, rawExempt, lineNet, lineGross,
      lineDiscountAmount, builtLine, roundCents]
  · norm_num [createInvoiceTotals, finishBuild, buildSubtotal, preliminaryVat,
      preliminaryTotal, rawSubtotal, rawVat, rawExempt, lineNet, lineGross,
      lineDiscountAmount, builtLine, roundCents]

/-- C8 witness: the general component applied to the invoice one cent
above the threshold. -/
theorem stampDuty_strict_threshold_witness :
    createInvoiceTotals ⟨[⟨1, 7748/100, 0⟩], 0, true, some "N4", none, 7747/100, 2⟩ =
      .ok ⟨[⟨1, 7748/100, 0, 0, 0⟩], 7748/100, 0, 7948/100, 7748/100, true, 2,
        true, some "N4", none⟩ ∧
    (((BuildResult.mk [⟨1, 7748/100, 0, 0, 0⟩] (7748/100) 0 (7948/100) (7748/100)
        true 2 true (some "N4") none).stampDutyApplied = true) ↔
      (BuildResult.mk [⟨1, 7748/100, 0, 0, 0⟩] (7748/100) 0 (7948/100) (7748/100)
        true 2 true (some "N4") none).exemptSubtotal > (7747/100 : ℚ)) := by
  have h : createInvoiceTotals
      ⟨[⟨1, 7748/100, 0⟩], 0, true, some "N4", none, 7747/100, 2⟩ =
      .ok ⟨[⟨1, 7748/100, 0, 0, 0⟩], 7748/100, 0, 7948/100, 7748/100, true, 2,
        true, some "N4", none⟩ := by
    norm_num [createInvoiceTotals, finishBuild, buildSubtotal, preliminaryVat,
      preliminaryTotal, rawSubtotal, rawVat, rawExempt, lineNet, lineGross,
      lineDiscountAmount, builtLine, roundCents]
  exact ⟨h, (stampDuty_strict_threshold.1 _ _ h).1⟩

/-! ## C7 -/

/-- C7 counterexample. An invoice of total 100 (one zero-rated line of
100) that already carries a partial credit note of −50: the full
reversal's only guard is `credited_amount >= invoice.total` (50 ≥ 100 is
false), so it succeeds and emits a credit note of total −100, making the
cumulative absolute credited total 150 > 100 — the invoice is
over-reversed, against the claimed invariant. -/
theorem fullReversal_overReverses :
    createFromInvoice ⟨100, false, 0, [⟨1, 1, 100, 0, 0, 0⟩]⟩ [-50] =
      .ok ⟨-100, 0, -100⟩ ∧
    (([-50, -100] : List ℚ).map (fun t => |t|)).sum = 150 ∧
    (150 : ℚ) > 100 := by
  refine ⟨?_, by norm_num, by norm_num⟩
  norm_num [createFromInvoice, cnLineSub, cnLineVat, roundCents]

/-- C7 amended. The cumulative cap `Σ|credit_note.total| <=
invoice.total` is enforced by the **partial** reversal path (a new
partial note is rejected whenever the existing credited amount plus its
absolute total would exceed the invoice total), while the full reversal
path only rejects when the invoice is already fully credited
(`credited_amount >= invoice.total`) — so a full reversal issued after a
partial one can push the cumulative credited amount past the invoice
total. -/
theorem creditNote_cumulative_cap :
    (∀ (inv : CNInvoice) (existing : List ℚ) (req : List CNRequestLine)
        (out : CNTotals),
      createPartialCreditNote inv existing req = .ok out →
      (existing.map (fun t => |t|)).sum + |out.total| ≤ inv.total) ∧
    (∀ (inv : CNInvoice) (existing : List ℚ),
      (existing.map (fun t => |t|)).sum ≥ inv.total →
      createFromInvoice inv existing = .error (.businessValidation
        "la fattura è già stata completamente stornata")) := by
  constructor
  · intro inv existing req out h
    unfold createPartialCreditNote at h
    cases hs : cnRequestSums inv.lines req with
    | error err => rw [hs] at h; exact absurd h (by simp)
    | ok sv =>
      rw [hs] at h
      simp only [] at h
      by_cases hcap : (existing.map (fun t => |t|)).sum + |sv.1 + sv.2| > inv.total
      · rw [if_pos hcap] at h; exact absurd h (by simp)
      · rw [if_neg hcap] at h
        injection h with h'
        subst h'
        exact not_lt.mp hcap
  · intro inv existing hge
    unfold createFromInvoice
    rw [if_pos hge]

/-- C7 witness: the partial component applied to a reversal of half a
line of the 100-total invoice, and the full component applied to an
already fully credited invoice. -/
theorem creditNote_cumulative_cap_witness :
    createPartialCreditNote ⟨100, false, 0, [⟨1, 1, 100, 0, 0, 0⟩]⟩ [] [⟨1, 1/2⟩] =
      .ok ⟨-50, 0, -50⟩ ∧
    (([] : List ℚ).map (fun t => |t|)).sum +
      |(CNTotals.mk (-50) 0 (-50)).total| ≤
      (CNInvoice.mk 100 false 0 [⟨1, 1, 100, 0, 0, 0⟩]).total ∧
    (([-100] : List ℚ).map (fun t => |t|)).sum ≥
      (CNInvoice.mk 100 false 0 [⟨1, 1, 100, 0, 0, 0⟩]).total ∧
    createFromInvoice ⟨100, false, 0, [⟨1, 1, 100, 0, 0, 0⟩]⟩ [-100] =
      .error (.businessValidation "la fattura è già stata completamente stornata") := by
  have h : createPartialCreditNote ⟨100, false, 0, [⟨1, 1, 100, 0, 0, 0⟩]⟩ []
      [⟨1, 1/2⟩] = .ok ⟨-50, 0, -50⟩ := by
    norm_num [createPartialCreditNote, cnRequestSums, cnLineSub, cnLineVat,
      List.filter, roundCents]
  have hge : (([-100] : List ℚ).map (fun t => |t|)).sum ≥
      (CNInvoice.mk 100 false 0 [⟨1, 1, 100, 0, 0, 0⟩]).total := by norm_num
  exact ⟨h, creditNote_cumulative_cap.1 _ _ _ _ h, hge,
    creditNote_cumulative_cap.2 _ _ hge⟩

/-! ## C9 -/

theorem flushAllocations_ok {allocs r : List (ℕ × ℚ)}
    (h : flushAllocations allocs = .ok r) : r = allocs := by
  unfold flushAllocations at h
  split at h
  · exact absurd h (by simp)
  · exact (Except.ok.injEq _ _ ▸ h).symm

theorem manualLoop_ok_amounts (payment : PaymentHead)
    (invoices : List LedgerInvoice) :
    ∀ (entries : List ManualEntry) (allocs : List (ℕ × ℚ)),
      manualLoop payment invoices entries = .ok allocs →
      allocs.map Prod.snd = entries.map (fun e => e.amount) := by
  intro entries
  induction entries with
  | nil =>
    intro allocs h
    simp only [manualLoop] at h
    cases h
    rfl
  | cons e rest ih =>
    intro allocs h
    simp only [manualLoop] at h
    cases hf : (invoices.filter
        (fun i => i.id == e.invoiceId && i.clientId == payment.clientId)).head? with
    | none => rw [hf] at h; exact absurd h (by simp)
    | some inv =>
      rw [hf] at h
      simp only [] at h
      by_cases hamt : e.amount > ledgerRemaining inv
      · rw [if_pos hamt] at h; exact absurd h (by simp)
      · rw [if_neg hamt] at h
        cases hr : manualLoop payment invoices rest with
        | error err => rw [hr] at h; exact absurd h (by simp)
        | ok tail =>
          rw [hr] at h
          cases h
          simp [ih tail hr]

theorem mem_insertLe {α : Type} (le : α → α → Bool) (x a : α) (l : List α) :
    a ∈ insertLe le x l ↔ a = x ∨ a ∈ l := by
  induction l with
  | nil => simp [insertLe]
  | cons b t ih =>
    simp only [insertLe]
    split
    · simp
    · simp only [List.mem_cons, ih]
      tauto

theorem mem_sortLe {α : Type} (le : α → α → Bool) (a : α) (l : List α) :
    a ∈ sortLe le l ↔ a ∈ l := by
  induction l with
  | nil => simp [sortLe]
  | cons b t ih => simp [sortLe, mem_insertLe, ih]

theorem greedyAllocate_sum_le (l : List LedgerInvoice) :
    ∀ pay : ℚ, 0 ≤ pay → ((greedyAllocate pay l).map Prod.snd).sum ≤ pay := by
  induction l with
  | nil =>
    intro pay h
    simpa [greedyAllocate] using h
  | cons i rest ih =>
    intro pay h
    by_cases hp : pay ≤ 0
    · simpa [greedyAllocate, hp] using h
    · have ha : min pay (ledgerRemaining i) ≤ pay := min_le_left _ _
      have h' : 0 ≤ pay - min pay (ledgerRemaining i) := by linarith
      have := ih (pay - min pay (ledgerRemaining i)) h'
      simp only [greedyAllocate, if_neg hp, List.map_cons, List.sum_cons]
      linarith

theorem greedyAllocate_each (l : List LedgerInvoice)
    (hl : ∀ i ∈ l, 0 < ledgerRemaining i) :
    ∀ (pay : ℚ) (p : ℕ × ℚ), p ∈ greedyAllocate pay l →
      ∃ i, i ∈ l ∧ i.id = p.1 ∧ p.2 ≤ ledgerRemaining i ∧ p.2 ≤ pay := by
  induction l with
  | nil => intro pay p h; simp [greedyAllocate] at h
  | cons i rest ih =>
    intro pay p h
    by_cases hp : pay ≤ 0
    · simp [greedyAllocate, hp] at h
    · simp only [greedyAllocate, if_neg hp, List.mem_cons] at h
      rcases h with h | h
      · exact ⟨i, List.mem_cons_self i rest, by rw [h], by
          rw [h]; exact min_le_right _ _, by rw [h]; exact min_le_left _ _⟩
      · have hrest : ∀ j ∈ rest, 0 < ledgerRemaining j := fun j hj =>
          hl j (List.mem_cons_of_mem i hj)
        obtain ⟨j, hj, hid, hle, hpay⟩ :=
          ih hrest (pay - min pay (ledgerRemaining i)) p h
        have h0 : 0 ≤ min pay (ledgerRemaining i) := by
          have h1 : 0 < pay := lt_of_not_le hp
          have h2 : 0 < ledgerRemaining i := hl i (List.mem_cons_self i rest)
          exact le_min h1.le h2.le
        exact ⟨j, List.mem_cons_of_mem i hj, hid, hle, by linarith⟩

theorem allocateAuto_ok (le : LedgerInvoice → LedgerInvoice → Bool)
    (payment : PaymentHead) (invoices : List LedgerInvoice)
    (r : List (ℕ × ℚ)) (h0 : 0 ≤ payment.amount)
    (h : allocateAuto le payment invoices = .ok r) :
    (r.map Prod.snd).sum ≤ payment.amount ∧
    ∀ p ∈ r, ∃ i, i ∈ invoices ∧ i.id = p.1 ∧
      p.2 ≤ ledgerRemaining i ∧ p.2 ≤ payment.amount := by
  unfold allocateAuto at h
  by_cases hemp : (openInvoices le payment invoices).isEmpty
  · rw [if_pos hemp] at h; exact absurd h (by simp)
  · rw [if_neg hemp] at h
    have hr := flushAllocations_ok h
    subst hr
    have hsub : ∀ i ∈ openInvoices le payment invoices, i ∈ invoices := by
      intro i hi
      simp only [openInvoices, List.mem_filter] at hi
      have := (mem_sortLe le i _).mp hi.1
      exact (List.mem_filter.mp this).1
    have hpos : ∀ i ∈ openInvoices le payment invoices, 0 < ledgerRemaining i := by
      intro i hi
      simp only [openInvoices, List.mem_filter] at hi
      simpa using hi.2
    refine ⟨greedyAllocate_sum_le _ payment.amount h0, ?_⟩
    intro p hp
    obtain ⟨i, hi, hid, hle, hpay⟩ :=
      greedyAllocate_each _ hpos payment.amount p hp
    exact ⟨i, hsub i hi, hid, hle, hpay⟩

/-- C9. Under every allocation strategy the sum of a payment's
allocations never exceeds `payment.amount`: a manual batch whose amounts
sum above the payment is rejected as business-validation; a successful
manual allocation allocates exactly the batch's amounts, whose sum is at
most the payment; the greedy strategies (`fifo` and `overdue_first`)
allocate to each invoice at most its remaining amount and at most the
payment; and a leftover is exposed through `Payment.unallocated_amount`
(never discarded, never an error): a fifo payment of 150 against one
open invoice of remaining 100 succeeds with an unallocated remainder of
50. -/
theorem allocation_sum_le_payment :
    (∀ (payment : PaymentHead) (invoices : List LedgerInvoice)
        (entries : List ManualEntry) (r : List (ℕ × ℚ)),
      allocateManual payment invoices entries = .ok r →
        (r.map Prod.snd).sum ≤ payment.amount ∧
        unallocatedAmount payment.amount r =
          payment.amount - (r.map Prod.snd).sum) ∧
    (∀ (payment : PaymentHead) (invoices : List LedgerInvoice)
        (entries : List ManualEntry),
      (entries.map (fun e => e.amount)).sum > payment.amount →
      entries.isEmpty = false →
      allocateManual payment invoices entries =
        .error (.businessValidation "Somma allocazioni supera importo pagamento")) ∧
    (∀ (strategy : String) (today : ℤ) (payment : PaymentHead)
        (invoices : List LedgerInvoice) (entries : List ManualEntry)
        (r : List (ℕ × ℚ)),
      strategy = "fifo" ∨ strategy = "overdue_first" → 0 ≤ payment.amount →
      allocatePayment strategy today payment invoices entries = .ok r →
        (r.map Prod.snd).sum ≤ payment.amount ∧
        ∀ p ∈ r, ∃ i, i ∈ invoices ∧ i.id = p.1 ∧
          p.2 ≤ ledgerRemaining i ∧ p.2 ≤ payment.amount) ∧
    allocatePayment "fifo" 0 ⟨7, 150⟩ [⟨1, 7, 0, 0, 100, 0⟩] [] = .ok [(1, 100)] ∧
    unallocatedAmount 150 [(1, 100)] = 50 := by
  refine ⟨?_, ?_, ?_, ?_, by norm_num [unallocatedAmount]⟩
  · intro payment invoices entries r h
    unfold allocateManual at h
    by_cases hemp : entries.isEmpty = true
    · rw [if_pos hemp] at h; exact absurd h (by simp)
    · rw [if_neg hemp] at h
      by_cases hsum : (entries.map (fun e => e.amount)).sum > payment.amount
      · rw [if_pos hsum] at h; exact absurd h (by simp)
      · rw [if_neg hsum] at h
        cases hm : manualLoop payment invoices entries with
        | error err => rw [hm] at h; exact absurd h (by simp)
        | ok allocs =>
          rw [hm] at h
          have hr := flushAllocations_ok h
          constructor
          · rw [hr, manualLoop_ok_amounts payment invoices entries allocs hm]
            exact not_lt.mp hsum
          · rw [hr]
            simp [unallocatedAmount]
  · intro payment invoices entries hsum hne
    unfold allocateManual
    rw [if_neg (by simp [hne]), if_pos hsum]
  · intro strategy today payment invoices entries r hs h0 h
    rcases hs with hs | hs <;> subst hs
    · have hd : allocatePayment "fifo" today payment invoices entries =
          allocateAuto fifoLe payment invoices := by
        unfold allocatePayment
        rw [if_neg (by decide), if_pos rfl]
      rw [hd] at h
      exact allocateAuto_ok fifoLe payment invoices r h0 h
    · have hd : allocatePayment "overdue_first" today payment invoices entries =
          allocateAuto (overdueLe today) payment invoices := by
        unfold allocatePayment
        rw [if_neg (by decide), if_neg (by decide), if_pos rfl]
      rw [hd] at h
      exact allocateAuto_ok (overdueLe today) payment invoices r h0 h
  · have hd : allocatePayment "fifo" 0 ⟨7, 150⟩ [⟨1, 7, 0, 0, 100, 0⟩] [] =
        allocateAuto fifoLe ⟨7, 150⟩ [⟨1, 7, 0, 0, 100, 0⟩] := by
      unfold allocatePayment
      rw [if_neg (by decide), if_pos rfl]
    rw [hd]
    have hopen : openInvoices fifoLe ⟨7, 150⟩ [⟨1, 7, 0, 0, 100, 0⟩] =
        [⟨1, 7, 0, 0, 100, 0⟩] := by
      norm_num [openInvoices, sortLe, insertLe, ledgerRemaining, List.filter]
    unfold allocateAuto
    rw [hopen]
    rw [if_neg (by simp)]
    have hgreedy : greedyAllocate 150 [⟨1, 7, 0, 0, 100, 0⟩] = [(1, 100)] := by
      norm_num [greedyAllocate, ledgerRemaining, min_def]
    rw [hgreedy]
    norm_num [flushAllocations, hasDupId]

/-- C9 witness: the manual component applied to a batch of one entry of
60 against an invoice with remaining 100 under a payment of 100. -/
theorem allocation_sum_le_payment_witness :
    allocateManual ⟨7, 100⟩ [⟨1, 7, 0, 0, 100, 0⟩] [⟨1, 60⟩] = .ok [(1, 60)] ∧
    (([(1, 60)] : List (ℕ × ℚ)).map Prod.snd).sum ≤ (100 : ℚ) := by
  have h : allocateManual ⟨7, 100⟩ [⟨1, 7, 0, 0, 100, 0⟩] [⟨1, 60⟩] = .ok [(1, 60)] := by
    norm_num [allocateManual, manualLoop, ledgerRemaining, List.filter,
      flushAllocations, hasDupId]
  exact ⟨h, (allocation_sum_le_payment.1 ⟨7, 100⟩ [⟨1, 7, 0, 0, 100, 0⟩] [⟨1, 60⟩]
    [(1, 60)] h).1⟩

/-- C10 witness: the universal part applied to the pending deposit of 50
and the fully paid invoice of total 100. -/
theorem depositApply_total_only_witness :
    (DepositRec.mk 7 50 DepStatus.pending).status = DepStatus.pending ∧
    (DepositRec.mk 7 50 DepStatus.pending).amount ≤ (DepInvoice.mk 1 100 100).total ∧
    applyToInvoice ⟨7, 50, DepStatus.pending⟩ (some ⟨1, 100, 100⟩) =
      .ok ⟨50, 50, DepStatus.applied⟩ :=
  ⟨rfl, by norm_num, depositApply_total_only.1 _ _ rfl (by norm_num)⟩

end Gestionale
